import Mathlib

/-!
Verification development for the exif_geolocation_util repository
(src/lib.rs, src/main.rs).

Modelling conventions:
* Rust `String` / `&str` values are modelled as `List Char`; the byte
  stream written/read by the codecs is also a `List Char`, where a raw
  byte `b` appears as `Char.ofNat b` (all bytes the codecs emit are
  below 0x100, so this is faithful for the ASCII/byte data involved).
* Rust `f64` values are modelled as `ℚ`; the `as u32` float-to-integer
  cast truncates toward zero and saturates at the ends of the `u32`
  range, which on non-negative values is `Int.floor` clamped.
* Machine integers are `Nat` with explicit `% 2^w` / masking at the
  points where the Rust code performs a narrowing `as` cast or where a
  shift would discard high bits.
* `Result<T, E>` is `RResult ε α`; a Rust `panic!` (an abort, not a
  value returned to the caller) is the distinguished outcome
  `PanicOr.panics msg`, separate from any returned error value.
-/

/-- Result type mirroring Rust `Result<T, E>` (`Ok` / `Err`). -/
inductive RResult (ε : Type) (α : Type) where
  | ok (a : α)
  | err (e : ε)
  deriving DecidableEq

/-- Map over the success value of an `RResult`, mirroring `Result::map`. -/
def RResult.map (f : α → β) : RResult ε α → RResult ε β
  | .ok a => .ok (f a)
  | .err e => .err e

/-- Outcome of a Rust computation that can `panic!`: either a normal
value or a panic (a process-level abort carrying the panic message).
A panic is not a value returned to the caller. -/
inductive PanicOr (α : Type) where
  | ok (a : α)
  | panics (msg : List Char)
  deriving DecidableEq

/-- Sequencing for `PanicOr`: a panic aborts everything after it. -/
def PanicOr.bind : PanicOr α → (α → PanicOr β) → PanicOr β
  | .ok a, f => f a
  | .panics m, _ => .panics m

/-- Characters considered whitespace by Rust `char::is_whitespace`
(the `White_Space` Unicode property, a fixed list of code points). -/
def isRustWhitespace (c : Char) : Bool :=
  (decide (0x9 ≤ c.toNat) && decide (c.toNat ≤ 0xD)) || c.toNat == 0x20 ||
  c.toNat == 0x85 || c.toNat == 0xA0 || c.toNat == 0x1680 ||
  (decide (0x2000 ≤ c.toNat) && decide (c.toNat ≤ 0x200A)) ||
  c.toNat == 0x2028 || c.toNat == 0x2029 || c.toNat == 0x202F ||
  c.toNat == 0x205F || c.toNat == 0x3000

/-- Rust `str::trim_end`: remove trailing whitespace. -/
def trimEnd (s : List Char) : List Char :=
  (s.reverse.dropWhile isRustWhitespace).reverse

/-- Rust `str::trim_start`: remove leading whitespace. -/
def trimStart (s : List Char) : List Char :=
  s.dropWhile isRustWhitespace

/-- Rust `str::trim`: remove leading and trailing whitespace. -/
def trim (s : List Char) : List Char :=
  trimEnd (trimStart s)

/-- Split a stream at the first `'\n'`: the line (newline excluded) and
the remainder after the newline. With no newline the whole stream is
the line (`BufRead::read_line` at end of input). -/
def splitLine : List Char → List Char × List Char
  | [] => ([], [])
  | c :: cs =>
    if c = '\n' then ([], cs)
    else (c :: (splitLine cs).1, (splitLine cs).2)

/-- `read_line` from src/lib.rs lines 5-9: read one line from the
reader and return it with trailing whitespace (including the newline)
stripped. Also returns the unconsumed remainder of the stream. -/
def read_line (s : List Char) : List Char × List Char :=
  (trimEnd (splitLine s).1, (splitLine s).2)

/-- `CityEntry` from src/lib.rs lines 11-21. -/
structure CityEntry where
  name : List Char
  latitude : ℚ
  longitude : ℚ
  population : Nat
  country_ix : Nat
  region_ix : Nat
  subregion_ix : Nat
  timezone_ix : Nat
  feature_ix : Nat
  deriving DecidableEq

/-- Rust `as u32` cast from `f64` (here ℚ): truncate toward zero and
saturate into the `u32` range. On values ≥ 0 truncation is `Int.floor`;
`Int.toNat` realises the saturation at 0. -/
def rustCastU32 (q : ℚ) : Nat :=
  min (Int.toNat ⌊q⌋) 4294967295

/-- The 13 fixed bytes produced by `write_city_entry`
(src/lib.rs lines 23-41), big-endian. Narrowing `as` casts and
overflowing `<<` on `u32` are the corresponding `%`/mask operations;
`population` is a `u16` field, hence the `% 65536`. -/
def cityRecordBytes (c : CityEntry) : List Nat :=
  let lat := rustCastU32 ((c.latitude + 90) / 180 * 1048576)
  let long := rustCastU32 ((c.longitude + 180) / 360 * 1048576)
  let lt := (lat >>> 4) % 65536
  let f := (((lat &&& 0x0f) <<< 4) ||| (long &&& 0x0f)) % 256
  let ln := (long >>> 4) % 65536
  let code := (((c.country_ix % 4294967296) <<< 24) % 4294967296) |||
    (((c.population % 65536) <<< 12) % 4294967296) |||
    (c.region_ix % 4294967296)
  let sn := c.subregion_ix % 65536
  let tn := c.timezone_ix &&& 0xff
  let ftn := ((((c.timezone_ix &&& 0x100) % 256) <<< 7) % 256) |||
    (c.feature_ix % 256)
  [lt / 256, lt % 256, f, ln / 256, ln % 256,
   (code >>> 24) % 256, (code >>> 16) % 256, (code >>> 8) % 256, code % 256,
   sn / 256, sn % 256, tn, ftn]

/-- `write_city_entry` (src/lib.rs lines 23-45): the 13 record bytes
followed by the name and a newline, as emitted into the stream. -/
def write_city_entry (c : CityEntry) : List Char :=
  (cityRecordBytes c).map Char.ofNat ++ c.name ++ ['\n']

/-- `parse_city_entry` (src/lib.rs lines 58-93): decode the 13-byte
record and read the newline-terminated name from the stream; returns
the entry and the unconsumed remainder of the stream. -/
def parse_city_entry (data : List Nat) (input : List Char) : CityEntry × List Char :=
  let b := fun i => data.getD i 0
  let lt := b 0 * 256 + b 1
  let f := b 2
  let ln := b 3 * 256 + b 4
  let code := ((b 5 * 256 + b 6) * 256 + b 7) * 256 + b 8
  let sn := b 9 * 256 + b 10
  let tn := b 11
  let ftn := b 12
  let lat := (lt <<< 4) ||| (f >>> 4)
  let long := (ln <<< 4) ||| (f &&& 0x0f)
  let lat_deg : ℚ := 180 * ((lat : ℚ) / 1048576) - 90
  let long_deg : ℚ := 360 * ((long : ℚ) / 1048576) - 180
  let country_ix := code >>> 24
  let pop := (code >>> 12) &&& 0xfff
  let region_ix := code &&& 0xfff
  let timezone_ix := if ftn &&& 0x80 ≠ 0 then tn + 256 else tn
  let feature_ix := ftn &&& 0x3f
  (⟨(read_line input).1, lat_deg, long_deg, pop, country_ix, region_ix,
    sn, timezone_ix, feature_ix⟩, (read_line input).2)

/-- `GeoDatabase` from src/lib.rs lines 95-103. -/
structure GeoDatabase where
  comment : List Char
  cities : List CityEntry
  countries : List (List Char)
  regions : List (List Char)
  subregions : List (List Char)
  timezones : List (List Char)
  features : List (List Char)
  deriving DecidableEq

/-- Rust `str::split(',')`: split into the comma-separated segments
(an empty input yields one empty segment). -/
def splitOn (sep : Char) : List Char → List (List Char)
  | [] => [[]]
  | c :: cs =>
    if c = sep then [] :: splitOn sep cs
    else
      match splitOn sep cs with
      | [] => [[c]]
      | p :: ps => (c :: p) :: ps

/-- Rust `str::contains(&str)`: substring containment (an empty needle
is always contained). -/
def listContains (hay pat : List Char) : Bool :=
  if pat.isPrefixOf hay then true
  else
    match hay with
    | [] => false
    | _ :: t => listContains t pat

/-- Rust `Vec` indexing `v[i]`, which panics when `i` is out of
bounds. -/
def vecIndex (v : List (List Char)) (i : Nat) : PanicOr (List Char) :=
  match v.get? i with
  | some x => .ok x
  | none => .panics "index out of bounds".toList

/-- One `match <segment> { None => .., Some(q) => table[ix].contains(q) && .. }`
clause of the query filters: with no segment continue with `k`, else
look up the table entry (panicking if the index is out of bounds) and
short-circuit on a failed containment test. -/
def checkTable (table : List (List Char)) (ix : Nat) (q : Option (List Char))
    (k : PanicOr Bool) : PanicOr Bool :=
  match q with
  | none => k
  | some qs =>
    (vecIndex table ix).bind (fun entry =>
      if listContains entry qs then k else .ok false)

/-- `iter().enumerate().filter(..).map(|(ix, _)| ix).collect()` over a
list, with a per-element test that may panic. -/
def collectIndices (p : Nat → α → PanicOr Bool) : Nat → List α → PanicOr (List Nat)
  | _, [] => .ok []
  | i, x :: xs =>
    (p i x).bind (fun b =>
      (collectIndices p (i + 1) xs).bind (fun rest =>
        .ok (if b then i :: rest else rest)))

/-- The filter closure of `find_matching_cities` (src/lib.rs lines
327-338): exact name equality, then substring checks against the
country, region and subregion tables in that order (Rust `&&`
short-circuits, so no table is indexed when the name already fails). -/
def cityMatches (db : GeoDatabase) (nm : List Char)
    (sub reg ctry : Option (List Char)) (c : CityEntry) : PanicOr Bool :=
  if c.name = nm then
    checkTable db.countries c.country_ix ctry
      (checkTable db.regions c.region_ix reg
        (checkTable db.subregions c.subregion_ix sub (.ok true)))
  else .ok false

/-- `find_matching_cities` (src/lib.rs lines 316-341): split the query
on commas into name/subregion/region/country segments (more than 4
segments panics), then collect the indices of the matching cities. -/
def find_matching_cities (db : GeoDatabase) (q : List Char) : PanicOr (List Nat) :=
  let parts := splitOn ',' q
  match parts.length with
  | 1 => collectIndices
      (fun _ c => cityMatches db (parts.getD 0 []) none none none c) 0 db.cities
  | 2 => collectIndices
      (fun _ c => cityMatches db (trim (parts.getD 0 [])) none none
        (some (trim (parts.getD 1 []))) c) 0 db.cities
  | 3 => collectIndices
      (fun _ c => cityMatches db (trim (parts.getD 0 [])) none
        (some (trim (parts.getD 1 []))) (some (trim (parts.getD 2 []))) c) 0 db.cities
  | 4 => collectIndices
      (fun _ c => cityMatches db (trim (parts.getD 0 []))
        (some (trim (parts.getD 1 []))) (some (trim (parts.getD 2 [])))
        (some (trim (parts.getD 3 []))) c) 0 db.cities
  | _ => .panics "Cannot have more than 4 parts to a city search string".toList

/-- `add_city` (src/lib.rs lines 343-345). -/
def add_city (db : GeoDatabase) (c : CityEntry) : GeoDatabase :=
  { db with cities := db.cities ++ [c] }

/-- `remove_city` (src/lib.rs lines 347-349): `Vec::remove` panics when
the index is out of range. -/
def remove_city (db : GeoDatabase) (city_ix : Nat) : PanicOr GeoDatabase :=
  if city_ix < db.cities.length then
    .ok { db with cities := db.cities.eraseIdx city_ix }
  else .panics "removal index should be less than len".toList

/-- `subregion_parents` (src/lib.rs lines 495-502): region, country and
timezone of the first city in the given subregion; panics when no city
references the subregion. -/
def subregion_parents (db : GeoDatabase) (subregion_ix : Nat) :
    PanicOr (Nat × Nat × Nat) :=
  match db.cities.find? (fun c => c.subregion_ix == subregion_ix) with
  | some c => .ok (c.region_ix, c.country_ix, c.timezone_ix)
  | none => .panics "Didn\x27t find any cities in this subregion".toList

/-- `region_parent` (src/lib.rs lines 504-511): country of the first
city in the given region; panics when no city references the region. -/
def region_parent (db : GeoDatabase) (region_ix : Nat) : PanicOr Nat :=
  match db.cities.find? (fun c => c.region_ix == region_ix) with
  | some c => .ok c.country_ix
  | none => .panics "Didn\x27t find any cities in this region".toList

/-- The filter closure of `find_matching_subregions` (src/lib.rs lines
373-385): exact name equality, then the parent lookup (which can
panic), then country and region containment checks in that order. -/
def subregionMatches (db : GeoDatabase) (nm : List Char)
    (reg ctry : Option (List Char)) (ix : Nat) (s : List Char) : PanicOr Bool :=
  if s = nm then
    (subregion_parents db ix).bind (fun p =>
      checkTable db.countries p.2.1 ctry
        (checkTable db.regions p.1 reg (.ok true)))
  else .ok false

/-- `find_matching_subregions` (src/lib.rs lines 363-390): more than 3
segments panics. -/
def find_matching_subregions (db : GeoDatabase) (q : List Char) : PanicOr (List Nat) :=
  let parts := splitOn ',' q
  match parts.length with
  | 1 => collectIndices (subregionMatches db (parts.getD 0 []) none none)
      0 db.subregions
  | 2 => collectIndices (subregionMatches db (trim (parts.getD 0 [])) none
      (some (trim (parts.getD 1 [])))) 0 db.subregions
  | 3 => collectIndices (subregionMatches db (trim (parts.getD 0 []))
      (some (trim (parts.getD 1 []))) (some (trim (parts.getD 2 []))))
      0 db.subregions
  | _ => .panics "Cannot have more than 3 parts to a subregion search string".toList

/-- The filter closure of `find_matching_regions` (src/lib.rs lines
413-422). -/
def regionMatches (db : GeoDatabase) (nm : List Char)
    (ctry : Option (List Char)) (ix : Nat) (s : List Char) : PanicOr Bool :=
  if s = nm then
    (region_parent db ix).bind (fun c =>
      checkTable db.countries c ctry (.ok true))
  else .ok false

/-- `find_matching_regions` (src/lib.rs lines 404-427): more than 2
segments panics. -/
def find_matching_regions (db : GeoDatabase) (q : List Char) : PanicOr (List Nat) :=
  let parts := splitOn ',' q
  match parts.length with
  | 1 => collectIndices (regionMatches db (parts.getD 0 []) none) 0 db.regions
  | 2 => collectIndices (regionMatches db (trim (parts.getD 0 []))
      (some (trim (parts.getD 1 [])))) 0 db.regions
  | _ => .panics "Cannot have more than 2 parts to a region search string".toList

/-- Maximal run of ASCII decimal digits at the head of the input
(regex `[\d]+`, greedy), with the remainder. -/
def digitRun : List Char → List Char × List Char
  | [] => ([], [])
  | c :: cs =>
    if c.isDigit then (c :: (digitRun cs).1, (digitRun cs).2)
    else ([], c :: cs)

/-- Maximal run of whitespace at the head of the input
(regex `[\s]+`, greedy), with the remainder. -/
def wsRun : List Char → List Char × List Char
  | [] => ([], [])
  | c :: cs =>
    if isRustWhitespace c then (c :: (wsRun cs).1, (wsRun cs).2)
    else ([], c :: cs)

/-- Decimal digits to a number, as `str::parse` reads them. -/
def digitsToNat (ds : List Char) : Nat :=
  ds.foldl (fun a c => a * 10 + (c.toNat - 48)) 0

/-- Tail `\+?([\d]+)` of the population regex after `e`/`E`: an
optional `+` (greedy; dropping it cannot rescue a failed match because
`[\d]` never matches `+`), then at least one digit. -/
def popAfterE (r : List Char) : Option (List Char) :=
  match r with
  | '+' :: r2 => if (digitRun r2).1 = [] then none else some (digitRun r2).1
  | _ => if (digitRun r).1 = [] then none else some (digitRun r).1

/-- Tail `([\d]+)(?:e|E)\+?([\d]+)` of the population regex: the
maximal digit run (shortening it cannot help, since `e`/`E` is not a
digit), then `e` or `E`, then `popAfterE`. Returns the two captures. -/
def popTail (s : List Char) : Option (List Char × List Char) :=
  if (digitRun s).1 = [] then none
  else
    match (digitRun s).2 with
    | 'e' :: r2 => (popAfterE r2).map (fun d3 => ((digitRun s).1, d3))
    | 'E' :: r2 => (popAfterE r2).map (fun d3 => ((digitRun s).1, d3))
    | _ => none

/-- Backtracking over the first capture `([\d]+)` of the population
regex followed by `.` (any character): the first argument is the
current (reversed, nonempty) candidate for the first digit run, tried
longest first as a greedy `[\d]+` with backtracking; the `.` consumes
the following character. -/
def popNum : List Char → List Char → Option (List Char × List Char × List Char)
  | [], _ => none
  | [d], rest =>
    match rest with
    | _ :: r =>
      match popTail r with
      | some (d2, d3) => some ([d], d2, d3)
      | none => none
    | [] => none
  | d :: ds, rest =>
    match rest with
    | c :: r =>
      match popTail r with
      | some (d2, d3) => some ((d :: ds).reverse, d2, d3)
      | none => popNum ds (d :: c :: r)
    | [] => popNum ds (d :: rest)

/-- One leftmost-first attempt of the population regex
`([\d]+).([\d]+)(?:e|E)\+?([\d]+)` at the start of `s`. -/
def popTryAt (s : List Char) : Option (List Char × List Char × List Char) :=
  if (digitRun s).1 = [] then none
  else popNum (digitRun s).1.reverse (digitRun s).2

/-- Leftmost match of the (unanchored) population regex: try each
start position left to right. -/
def popRegexFind : List Char → Option (List Char × List Char × List Char)
  | [] => none
  | c :: cs =>
    match popTryAt (c :: cs) with
    | some x => some x
    | none => popRegexFind cs

/-- Rust `str::parse::<u16>` on a captured digit run: fails on
overflow past `u16::MAX`. -/
def parseU16 (ds : List Char) (eMsg : List Char) : RResult (List Char) Nat :=
  if ds ≠ [] ∧ digitsToNat ds ≤ 65535 then .ok (digitsToNat ds) else .err eMsg

/-- `parse_population_string` (src/lib.rs lines 201-228). -/
def parse_population_string (s : List Char) : RResult (List Char) Nat :=
  if s = "0".toList then .ok 0
  else
    match popRegexFind s with
    | some (intS, decS, sigS) =>
      match parseU16 intS "whole part not a valid integer".toList with
      | .err e => .err e
      | .ok integer =>
        match parseU16 decS "decimal part not a valid integer".toList with
        | .err e => .err e
        | .ok decimal =>
          match parseU16 sigS "significand not a valid integer".toList with
          | .err e => .err e
          | .ok significand =>
            if integer > 9 then .err "whole part must be a single digit, 0-9".toList
            else if decimal > 9 then .err "decimal part must be a single digit, 0-9".toList
            else if significand > 15 then .err "significand must be between 0-15 inclusive".toList
            else .ok (((integer &&& 0x0f) <<< 8) ||| ((decimal &&& 0x0f) <<< 4)
              ||| (significand &&& 0x0f))
    | none => .err "parse error, expected in format \"<whole>.<decimal>e+<significand>\"".toList

/-- `format_population` (src/lib.rs lines 229-235). -/
def format_population (pop : Nat) : List Char :=
  if pop &&& 0x0ff0 = 0 then "0".toList
  else
    Nat.toDigits 10 (pop >>> 8) ++ '.' ::
      Nat.toDigits 10 ((pop >>> 4) &&& 0x0f) ++ 'e' :: '+' ::
      Nat.toDigits 10 (pop &&& 0x0f)

/-- Range-check tail of `parse_dd` (src/lib.rs lines 149-155). -/
def ddRangeCheck (dd : ℚ) (max_abs : ℚ) : RResult (List Char) ℚ :=
  if dd > max_abs then
    .err "angle cannot be greater than \x7bmax_abs:.1\x7d".toList
  else if dd < -max_abs then
    .err "angle cannot be less than than -\x7bmax_abs:.1\x7d".toList
  else .ok dd

/-- `parse_dd` (src/lib.rs lines 139-156): apply the sign/hemisphere
policy to the magnitude, then range-check. -/
def parse_dd (sign : List Char) (dd : ℚ) (dir : List Char) (max_abs : ℚ) :
    RResult (List Char) ℚ :=
  if sign = "-".toList then
    if dir = "S".toList ∨ dir = "W".toList then
      .err "a negative angle south or west is likely a mistake so it is disallowed".toList
    else ddRangeCheck (-dd) max_abs
  else
    if dir = "S".toList ∨ dir = "W".toList then ddRangeCheck (-dd) max_abs
    else ddRangeCheck dd max_abs

/-- Tail `([\d]+)[\s]+([\d]+)` of the header regex after the any-char:
each run is greedy and needs no backtracking (whitespace never matches
`[\d]`, digits never match `[\s]`). Returns the second digit capture of
the version group. -/
def hdrTail (r : List Char) : Option (List Char) :=
  if (digitRun r).1 = [] then none
  else
    if (wsRun (digitRun r).2).1 = [] then none
    else
      if (digitRun (wsRun (digitRun r).2).2).1 = [] then none
      else some (digitRun r).1

/-- Backtracking over the version group `([\d]+. ...)` of the header
regex `Geolocation([\d]+.[\d]+)[\s]+([\d]+)`: the first argument is
the current (reversed, nonempty) candidate for the first digit run,
tried longest first; the `.` consumes the following character. Returns
the full version capture. -/
def hdrNum : List Char → List Char → Option (List Char)
  | [], _ => none
  | [d], rest =>
    match rest with
    | c :: r => (hdrTail r).map (fun d2 => [d] ++ c :: d2)
    | [] => none
  | d :: ds, rest =>
    match rest with
    | c :: r =>
      match hdrTail r with
      | some d2 => some ((d :: ds).reverse ++ c :: d2)
      | none => hdrNum ds (d :: c :: r)
    | [] => hdrNum ds (d :: rest)

/-- One attempt of the header regex at the start of `s`: the literal
`Geolocation`, then the version group. -/
def hdrTryAt (s : List Char) : Option (List Char) :=
  if ("Geolocation".toList).isPrefixOf s then
    if (digitRun (s.drop 11)).1 = [] then none
    else hdrNum (digitRun (s.drop 11)).1.reverse (digitRun (s.drop 11)).2
  else none

/-- Leftmost match of the (unanchored) header regex: try each start
position left to right. -/
def headerScan : List Char → Option (List Char)
  | [] => none
  | c :: cs =>
    match hdrTryAt (c :: cs) with
    | some v => some v
    | none => headerScan cs

/-- `DatabaseReadError` (src/lib.rs lines 696-700). `ioError` also
stands for the stream ending prematurely. -/
inductive DatabaseReadError where
  | unsupportedVersion (expected found : List Char)
  | invalidHeader (msg : List Char)
  | ioError
  deriving DecidableEq

/-- `parse_header` (src/lib.rs lines 685-694): extract the version
capture of the header regex, or report an invalid header. -/
def parse_header (header : List Char) : RResult DatabaseReadError (List Char) :=
  match headerScan header with
  | some v => .ok v
  | none => .err (.invalidHeader ("Expected \"Geolocation x.xx (n)\" where \"x.xx\" is the database version number and \"n\" is the number of cities in the database".toList))

/-- The six-byte sentinel `[0, 0, 0, 0, k, 0xA]` as written by
`write_to` (and compared raw, newline included, by the cities loop of
`read_from`). -/
def sentinelBytes (k : Nat) : List Char :=
  [Char.ofNat 0, Char.ofNat 0, Char.ofNat 0, Char.ofNat 0, Char.ofNat k,
   Char.ofNat 0xA]

/-- The five sentinel bytes `[0, 0, 0, 0, k]` a table loop of
`read_from` compares against the line it just read (the newline having
been consumed and trimmed by `read_line`). -/
def tableSentinel (k : Nat) : List Char :=
  [Char.ofNat 0, Char.ofNat 0, Char.ofNat 0, Char.ofNat 0, Char.ofNat k]

/-- One reference table written as `writeln!` lines. -/
def tableLines (t : List (List Char)) : List Char :=
  (t.map (fun l => l ++ ['\n'])).flatten

/-- `write_to` (src/lib.rs lines 622-663): header with the city count,
comment line, then the six sentinel-terminated sections. -/
def write_to (db : GeoDatabase) : List Char :=
  "Geolocation1.03 ".toList ++ Nat.toDigits 10 db.cities.length ++ '\n' ::
    (db.comment ++ '\n' ::
      ((db.cities.map write_city_entry).flatten ++ sentinelBytes 1 ++
        tableLines db.countries ++ sentinelBytes 2 ++
        tableLines db.regions ++ sentinelBytes 3 ++
        tableLines db.subregions ++ sentinelBytes 4 ++
        tableLines db.timezones ++ sentinelBytes 5 ++
        tableLines db.features ++ sentinelBytes 0))

/-- The cities loop of `read_from` (src/lib.rs lines 549-560): read 6
raw bytes, stop on the cities sentinel, otherwise read the remaining 7
bytes and the name line and decode the record. A truncated stream is
an `ioError` (`read_exact` fails). -/
def readCities (s : List Char) : RResult DatabaseReadError (List CityEntry × List Char) :=
  if h6 : s.length < 6 then .err .ioError
  else if s.take 6 = sentinelBytes 1 then .ok ([], s.drop 6)
  else if h13 : s.length < 13 then .err .ioError
  else
    match readCities (parse_city_entry ((s.take 13).map Char.toNat) (s.drop 13)).2 with
    | .ok (cs, r) =>
      .ok ((parse_city_entry ((s.take 13).map Char.toNat) (s.drop 13)).1 :: cs, r)
    | .err e => .err e
termination_by s.length
decreasing_by
  have hle : ∀ t : List Char, (splitLine t).2.length ≤ t.length := by
    intro t
    induction t with
    | nil => simp [splitLine]
    | cons c cs ih =>
      simp only [splitLine]
      split
      · simp
      · simpa using Nat.le_succ_of_le ih
  have h1 : (parse_city_entry ((s.take 13).map Char.toNat) (s.drop 13)).2
      = (splitLine (s.drop 13)).2 := rfl
  have h2 := hle (s.drop 13)
  simp only [h1]
  simp only [List.length_drop] at h2 ⊢
  omega

/-- One table loop of `read_from` (src/lib.rs lines 563-615): read
lines until one equals the section's sentinel bytes. In the Rust code
a stream that ends before the sentinel makes the loop read empty lines
forever (`read_line` keeps returning 0 bytes at end of input); the
model reports that degenerate case as `ioError` instead of diverging.
No claim exercises that path. -/
def readTable (k : Nat) (s : List Char) : RResult DatabaseReadError (List (List Char) × List Char) :=
  if hne : s = [] then .err .ioError
  else
    if (read_line s).1 = tableSentinel k then .ok ([], (read_line s).2)
    else
      match readTable k (read_line s).2 with
      | .ok (ls, r) => .ok ((read_line s).1 :: ls, r)
      | .err e => .err e
termination_by s.length
decreasing_by
  have hle : ∀ t : List Char, (splitLine t).2.length ≤ t.length := by
    intro t
    induction t with
    | nil => simp [splitLine]
    | cons c cs ih =>
      simp only [splitLine]
      split
      · simp
      · simpa using Nat.le_succ_of_le ih
  have h1 : (read_line s).2 = (splitLine s).2 := rfl
  rw [h1]
  cases s with
  | nil => exact absurd rfl hne
  | cons c cs =>
    have h2 := hle cs
    simp only [splitLine]
    split
    · simp
    · simp only [List.length_cons]
      omega

/-- `read_from` (src/lib.rs lines 537-620): header line, comment line,
version check, then the six sections. -/
def read_from (s : List Char) : RResult DatabaseReadError GeoDatabase :=
  match parse_header (read_line s).1 with
  | .err e => .err e
  | .ok version =>
    if version ≠ "1.03".toList then
      .err (.unsupportedVersion "1.03".toList version)
    else
      match readCities (read_line (read_line s).2).2 with
      | .err e => .err e
      | .ok (cities, s1) =>
        match readTable 2 s1 with
        | .err e => .err e
        | .ok (countries, s2) =>
          match readTable 3 s2 with
          | .err e => .err e
          | .ok (regions, s3) =>
            match readTable 4 s3 with
            | .err e => .err e
            | .ok (subregions, s4) =>
              match readTable 5 s4 with
              | .err e => .err e
              | .ok (timezones, s5) =>
                match readTable 0 s5 with
                | .err e => .err e
                | .ok (features, _) =>
                  .ok ⟨(read_line (read_line s).2).1, cities, countries,
                    regions, subregions, timezones, features⟩

/-- Pure (panic-free) version of `collectIndices`, used to state what
the query filters compute when no lookup panics. -/
def collectPure (p : Nat → α → Bool) : Nat → List α → List Nat
  | _, [] => []
  | i, x :: xs =>
    if p i x then i :: collectPure p (i + 1) xs else collectPure p (i + 1) xs

/-- The valid population input string `"<d1>.<d2>e+<s>"` for the given
digit and significand values. -/
def popString (d1 d2 sig : Nat) : List Char :=
  Nat.toDigits 10 d1 ++ '.' :: Nat.toDigits 10 d2 ++ 'e' :: '+' ::
    Nat.toDigits 10 sig

/-- A store with no cities and empty reference tables. -/
def emptyDb : GeoDatabase := ⟨[], [], [], [], [], [], []⟩

/-- Fixture city: a Bristol in country 0 (`GBUnited Kingdom`). -/
def bristol1 : CityEntry := ⟨"Bristol".toList, 0, 0, 0, 0, 0, 0, 0, 0⟩

/-- Fixture city: a Bristol in country 1 (`USUnited States`). -/
def bristol2 : CityEntry := ⟨"Bristol".toList, 0, 0, 0, 1, 0, 0, 0, 0⟩

/-- Fixture store with two cities named Bristol whose country entries
differ; only the first country entry contains `GB`. -/
def bristolDb : GeoDatabase :=
  ⟨[], [bristol1, bristol2],
   ["GBUnited Kingdom".toList, "USUnited States".toList], [], [], [], []⟩

/-- In-range city entry except for `timezone_ix = 256`, whose ninth
timezone bit the encoder loses. -/
def cityTzBug : CityEntry := ⟨['A'], 0, 0, 0, 0, 0, 0, 256, 0⟩

/-- City entry with the out-of-range `subregion_ix = 65536`. -/
def citySubOver : CityEntry := ⟨['A'], 0, 0, 0, 0, 0, 65536, 0, 0⟩

/-- Store with no cities, empty tables, and a comment consisting of a
single space. -/
def spaceCommentDb : GeoDatabase := ⟨[' '], [], [], [], [], [], []⟩

/-- City entry whose name ends in a space. -/
def citySpaceName : CityEntry := ⟨['X', ' '], 0, 0, 0, 0, 0, 0, 0, 0⟩

theorem trimEnd_trimEnd (s : List Char) : trimEnd (trimEnd s) = trimEnd s := by
  simp [trimEnd, List.dropWhile_idempotent]

theorem splitLine_append (r : List Char) :
    ∀ l : List Char, '\n' ∉ l → splitLine (l ++ '\n' :: r) = (l, r)
  | [], _ => by simp [splitLine]
  | c :: cs, h => by
    have hc : ¬(c = '\n') := fun e => h (e ▸ List.mem_cons_self c cs)
    have ih := splitLine_append r cs (fun m => h (List.mem_cons_of_mem c m))
    simp [splitLine, hc, ih]

theorem read_line_append (l r : List Char) (h : '\n' ∉ l) :
    read_line (l ++ '\n' :: r) = (trimEnd l, r) := by
  simp [read_line, splitLine_append r l h]

theorem splitOn_no_sep : ∀ b : List Char, ',' ∉ b → splitOn ',' b = [b]
  | [], _ => rfl
  | c :: cs, h => by
    have hc : ¬(c = ',') := fun e => h (e ▸ List.mem_cons_self c cs)
    have ih := splitOn_no_sep cs (fun m => h (List.mem_cons_of_mem c m))
    simp [splitOn, hc, ih]

theorem splitOn_two (b : List Char) :
    ∀ a : List Char, ',' ∉ a → ',' ∉ b → splitOn ',' (a ++ ',' :: b) = [a, b]
  | [], _, hb => by simp [splitOn, splitOn_no_sep b hb]
  | c :: cs, ha, hb => by
    have hc : ¬(c = ',') := fun e => ha (e ▸ List.mem_cons_self c cs)
    have ih := splitOn_two b cs (fun m => ha (List.mem_cons_of_mem c m)) hb
    simp [splitOn, hc, ih]

theorem vecIndex_lt (v : List (List Char)) (i : Nat) (h : i < v.length) :
    vecIndex v i = .ok (v.getD i []) := by
  simp [vecIndex, List.get?_eq_getElem?, List.getElem?_eq_getElem h,
    List.getD_eq_getElem v [] h]

theorem collectIndices_ok (p : Nat → α → PanicOr Bool) (q : Nat → α → Bool) :
    ∀ (xs : List α) (i : Nat), (∀ j x, x ∈ xs → p j x = .ok (q j x)) →
      collectIndices p i xs = .ok (collectPure q i xs)
  | [], i, _ => rfl
  | x :: xs, i, h => by
    have hx := h i x (List.mem_cons_self x xs)
    have ih := collectIndices_ok p q xs (i + 1)
      (fun j y hy => h j y (List.mem_cons_of_mem x hy))
    simp [collectIndices, collectPure, hx, ih, PanicOr.bind]

theorem collectPure_mem (p : Nat → α → Bool) :
    ∀ (xs : List α) (k n : Nat),
      n ∈ collectPure p k xs ↔ ∃ j x, xs[j]? = some x ∧ n = k + j ∧ p n x = true
  | [], k, n => by simp [collectPure]
  | x :: xs, k, n => by
    have ih := collectPure_mem p xs (k + 1) n
    constructor
    · intro hm
      by_cases hp : p k x
      · simp only [collectPure, hp, if_true, List.mem_cons] at hm
        rcases hm with rfl | hm
        · exact ⟨0, x, by simp, by omega, hp⟩
        · rcases ih.1 hm with ⟨j, y, hj, hn, hq⟩
          exact ⟨j + 1, y, by simpa using hj, by omega, hq⟩
      · simp only [collectPure, hp, if_false] at hm
        rcases ih.1 hm with ⟨j, y, hj, hn, hq⟩
        exact ⟨j + 1, y, by simpa using hj, by omega, hq⟩
    · rintro ⟨j, y, hj, rfl, hq⟩
      match j with
      | 0 =>
        simp only [List.getElem?_cons_zero, Option.some.injEq] at hj
        subst hj
        simp only [Nat.add_zero] at hq
        simp [collectPure, hq]
      | j + 1 =>
        simp only [List.getElem?_cons_succ] at hj
        have hin : k + (j + 1) ∈ collectPure p (k + 1) xs :=
          ih.2 ⟨j, y, hj, by omega, by simpa [Nat.add_assoc] using hq⟩
        by_cases hp : p k x <;> simp [collectPure, hp, hin]

/-- C1: the claimed encode/decode round-trip fails on the code: the
encoder truncates `timezone_ix & 0x100` to a `u8` (giving 0) before
shifting it into the top bit of the final byte, so the ninth timezone
bit is lost. For the otherwise in-range entry `cityTzBug` with
`timezone_ix = 256`, decoding the record written by `write_city_entry`
yields `timezone_ix = 0`, not 256 — contradicting the format
documented in the source (9-bit timezone index) and implemented by the
decoder. -/
theorem c1_timezone_bit_lost :
    cityTzBug.timezone_ix = 256 ∧
    (parse_city_entry (cityRecordBytes cityTzBug)
      (cityTzBug.name ++ ['\n'])).1.timezone_ix = 0 := by
  constructor
  · rfl
  · decide

/-- C2 counterexample: for the entry `citySubOver` with the
out-of-range `subregion_ix = 65536`, `write_city_entry` does not
report an error: it writes a full 13-byte record whose decoded
subregion index is the truncated value 0. -/
theorem c2_counterexample :
    (cityRecordBytes citySubOver).length = 13 ∧
    citySubOver.subregion_ix = 65536 ∧
    (parse_city_entry (cityRecordBytes citySubOver)
      (citySubOver.name ++ ['\n'])).1.subregion_ix = 0 :=
  ⟨by decide, by decide, by decide⟩

/-- C2 (amended): `write_city_entry` performs no range checking at
all: for every `CityEntry` it writes a full 13-byte record, and an
out-of-range `subregion_ix` is silently truncated modulo 2^16 (as the
decoded record shows) rather than reported as an error. -/
theorem c2_amended (c : CityEntry) :
    (cityRecordBytes c).length = 13 ∧
    (parse_city_entry (cityRecordBytes c) (c.name ++ ['\n'])).1.subregion_ix
      = c.subregion_ix % 65536 := by
  refine ⟨by simp [cityRecordBytes], ?_⟩
  have h : (parse_city_entry (cityRecordBytes c) (c.name ++ ['\n'])).1.subregion_ix
      = (c.subregion_ix % 65536) / 256 * 256 + (c.subregion_ix % 65536) % 256 := rfl
  rw [h]
  omega

/-- C3 counterexample: on the store with no cities, `remove_city 0`,
`subregion_parents 0` and `region_parent 0` all panic (a process-level
abort), rather than returning a failure value to the caller as the
claim states. -/
theorem c3_counterexample :
    remove_city emptyDb 0 = .panics "removal index should be less than len".toList ∧
    subregion_parents emptyDb 0
      = .panics "Didn\x27t find any cities in this subregion".toList ∧
    region_parent emptyDb 0
      = .panics "Didn\x27t find any cities in this region".toList :=
  ⟨by decide, by decide, by decide⟩

/-- C3 (amended): `remove_city` with an index out of range for the
city list, `subregion_parents` with a subregion index no city
references, and `region_parent` with a region index no city
references, each panic (an uncontrolled process-level abort via
`panic!` / `Vec::remove`), not returning an error value to the
caller. -/
theorem c3_amended (db : GeoDatabase) (ix : Nat) :
    (db.cities.length ≤ ix →
      remove_city db ix = .panics "removal index should be less than len".toList) ∧
    ((∀ c ∈ db.cities, c.subregion_ix ≠ ix) →
      subregion_parents db ix
        = .panics "Didn\x27t find any cities in this subregion".toList) ∧
    ((∀ c ∈ db.cities, c.region_ix ≠ ix) →
      region_parent db ix
        = .panics "Didn\x27t find any cities in this region".toList) := by
  refine ⟨fun h => ?_, fun h => ?_, fun h => ?_⟩
  · rw [remove_city, if_neg (by omega)]
  · rw [subregion_parents, List.find?_eq_none.2 (fun x hx => by simpa using h x hx)]
  · rw [region_parent, List.find?_eq_none.2 (fun x hx => by simpa using h x hx)]

/-- C3 amended witness: the amended claim instantiated on the empty
store at index 0. -/
theorem c3_amended_witness :
    remove_city emptyDb 0 = .panics "removal index should be less than len".toList ∧
    subregion_parents emptyDb 0
      = .panics "Didn\x27t find any cities in this subregion".toList ∧
    region_parent emptyDb 0
      = .panics "Didn\x27t find any cities in this region".toList :=
  ⟨(c3_amended emptyDb 0).1 (by decide),
   (c3_amended emptyDb 0).2.1 (by simp [emptyDb]),
   (c3_amended emptyDb 0).2.2 (by simp [emptyDb])⟩

/-- C4 counterexample: a query with more comma-separated segments than
the entity kind supports makes each find operation panic (a
process-level abort), not return a reported input error. -/
theorem c4_counterexample :
    find_matching_cities emptyDb "a,b,c,d,e".toList
      = .panics "Cannot have more than 4 parts to a city search string".toList ∧
    find_matching_subregions emptyDb "a,b,c,d".toList
      = .panics "Cannot have more than 3 parts to a subregion search string".toList ∧
    find_matching_regions emptyDb "a,b,c".toList
      = .panics "Cannot have more than 2 parts to a region search string".toList :=
  ⟨by decide, by decide, by decide⟩

/-- C4 (amended): for every query string with more comma-separated
segments than the entity kind supports (more than 4 for cities, 3 for
subregions, 2 for regions) the corresponding find operation panics
with the corresponding message, rather than returning an input
error. -/
theorem c4_amended (db : GeoDatabase) (q : List Char) :
    (4 < (splitOn ',' q).length →
      find_matching_cities db q
        = .panics "Cannot have more than 4 parts to a city search string".toList) ∧
    (3 < (splitOn ',' q).length →
      find_matching_subregions db q
        = .panics "Cannot have more than 3 parts to a subregion search string".toList) ∧
    (2 < (splitOn ',' q).length →
      find_matching_regions db q
        = .panics "Cannot have more than 2 parts to a region search string".toList) := by
  refine ⟨fun h => ?_, fun h => ?_, fun h => ?_⟩
  · simp only [find_matching_cities]
    split <;> first | rfl | omega
  · simp only [find_matching_subregions]
    split <;> first | rfl | omega
  · simp only [find_matching_regions]
    split <;> first | rfl | omega

/-- C4 amended witness: the amended claim instantiated on the empty
store with a five-segment query. -/
theorem c4_amended_witness :
    find_matching_cities emptyDb "a,b,c,d,e".toList
      = .panics "Cannot have more than 4 parts to a city search string".toList ∧
    find_matching_subregions emptyDb "a,b,c,d,e".toList
      = .panics "Cannot have more than 3 parts to a subregion search string".toList ∧
    find_matching_regions emptyDb "a,b,c,d,e".toList
      = .panics "Cannot have more than 2 parts to a region search string".toList :=
  ⟨(c4_amended emptyDb "a,b,c,d,e".toList).1 (by decide),
   (c4_amended emptyDb "a,b,c,d,e".toList).2.1 (by decide),
   (c4_amended emptyDb "a,b,c,d,e".toList).2.2 (by decide)⟩

/-- C6: for every 16-bit packed population value whose two digit
nibbles (mask 0x0ff0) are both zero, `format_population` returns the
literal string "0", regardless of the significand nibble. -/
theorem c6_format_zero (pop : Nat) (hu : pop < 65536) (h : pop &&& 0x0ff0 = 0) :
    format_population pop = "0".toList := by
  simp [format_population, h]

/-- C6 witness: the packed value 0x800F has zero digit nibbles, a
nonzero significand nibble (and a nonzero spare top nibble), and
formats as "0". -/
theorem c6_format_zero_witness :
    0x800f < 65536 ∧ 0x800f &&& 0x0ff0 = 0 ∧
      format_population 0x800f = "0".toList :=
  ⟨by decide, by decide, c6_format_zero 0x800f (by decide) (by decide)⟩

/-- C10: every string the read side produces comes out of `read_line`,
which strips all trailing whitespace: the first conjunct says a
`read_line` result is unchanged by a further `trimEnd`; the second
says the name decoded from the record `write_city_entry` produced is
the trim of the original name; the third is the claimed consequence
that a name with trailing whitespace is altered by a write-then-read
cycle even with all numeric fields in range. -/
theorem c10_read_side_trims :
    (∀ s : List Char, trimEnd (read_line s).1 = (read_line s).1) ∧
    (∀ (c : CityEntry) (rest : List Char), '\n' ∉ c.name →
      (parse_city_entry (cityRecordBytes c) (c.name ++ '\n' :: rest)).1.name
        = trimEnd c.name) ∧
    (∀ (c : CityEntry) (rest : List Char), '\n' ∉ c.name →
      trimEnd c.name ≠ c.name →
      (parse_city_entry (cityRecordBytes c) (c.name ++ '\n' :: rest)).1.name
        ≠ c.name) := by
  have hname : ∀ (c : CityEntry) (rest : List Char), '\n' ∉ c.name →
      (parse_city_entry (cityRecordBytes c) (c.name ++ '\n' :: rest)).1.name
        = trimEnd c.name := by
    intro c rest h
    have : (parse_city_entry (cityRecordBytes c) (c.name ++ '\n' :: rest)).1.name
        = (read_line (c.name ++ '\n' :: rest)).1 := rfl
    rw [this, read_line_append c.name rest h]
  refine ⟨fun s => ?_, hname, fun c rest h hne => ?_⟩
  · have : (read_line s).1 = trimEnd (splitLine s).1 := rfl
    rw [this, trimEnd_trimEnd]
  · rw [hname c rest h]
    exact hne

/-- C10 witness: the city entry whose name is `"X "` (trailing space,
all numeric fields in range) comes back from a write-then-read cycle
with the altered name `"X"`. -/
theorem c10_read_side_trims_witness :
    (parse_city_entry (cityRecordBytes citySpaceName)
      (citySpaceName.name ++ '\n' :: [])).1.name = trimEnd citySpaceName.name ∧
    (parse_city_entry (cityRecordBytes citySpaceName)
      (citySpaceName.name ++ '\n' :: [])).1.name ≠ citySpaceName.name :=
  ⟨c10_read_side_trims.2.1 citySpaceName [] (by decide),
   c10_read_side_trims.2.2 citySpaceName [] (by decide) (by decide)⟩

/-- C7: the sign/hemisphere policy of `parse_dd` for a magnitude `dd`
(coordinate magnitudes from the grammars are non-negative and the sign
capture is either empty or "-"): a leading "-" with S or W is rejected
with an error; a leading "-" with N, E or no hemisphere letter negates
the magnitude; no sign with S or W negates the magnitude; otherwise
the magnitude is returned unnegated. -/
theorem c7_sign_hemisphere (dd max_abs : ℚ) (dir : List Char)
    (h0 : 0 ≤ dd) (h1 : dd ≤ max_abs) :
    (dir = "S".toList ∨ dir = "W".toList →
      parse_dd "-".toList dd dir max_abs
        = .err "a negative angle south or west is likely a mistake so it is disallowed".toList) ∧
    (dir = "N".toList ∨ dir = "E".toList ∨ dir = [] →
      parse_dd "-".toList dd dir max_abs = .ok (-dd)) ∧
    (dir = "S".toList ∨ dir = "W".toList →
      parse_dd [] dd dir max_abs = .ok (-dd)) ∧
    (dir = "N".toList ∨ dir = "E".toList ∨ dir = [] →
      parse_dd [] dd dir max_abs = .ok dd) := by
  have hok : ddRangeCheck (-dd) max_abs = .ok (-dd) := by
    rw [ddRangeCheck, if_neg (by linarith), if_neg (by linarith)]
  have hok2 : ddRangeCheck dd max_abs = .ok dd := by
    rw [ddRangeCheck, if_neg (by linarith), if_neg (by linarith)]
  refine ⟨fun h => ?_, fun h => ?_, fun h => ?_, fun h => ?_⟩
  · rw [parse_dd, if_pos rfl, if_pos h]
  · have hne : ¬(dir = "S".toList ∨ dir = "W".toList) := by
      rcases h with h | h | h <;> subst h <;> decide
    rw [parse_dd, if_pos rfl, if_neg hne, hok]
  · rw [parse_dd, if_neg (by decide), if_pos h, hok]
  · have hne : ¬(dir = "S".toList ∨ dir = "W".toList) := by
      rcases h with h | h | h <;> subst h <;> decide
    rw [parse_dd, if_neg (by decide), if_neg hne, hok2]

/-- C7 witness: the four policy cases at magnitude 1 with
`max_abs = 90`. -/
theorem c7_sign_hemisphere_witness :
    parse_dd "-".toList 1 "S".toList 90
      = .err "a negative angle south or west is likely a mistake so it is disallowed".toList ∧
    parse_dd "-".toList 1 "N".toList 90 = .ok (-1) ∧
    parse_dd [] 1 "W".toList 90 = .ok (-1) ∧
    parse_dd [] 1 ([] : List Char) 90 = .ok 1 :=
  ⟨(c7_sign_hemisphere 1 90 "S".toList (by norm_num) (by norm_num)).1 (Or.inl rfl),
   (c7_sign_hemisphere 1 90 "N".toList (by norm_num) (by norm_num)).2.1 (Or.inl rfl),
   (c7_sign_hemisphere 1 90 "W".toList (by norm_num) (by norm_num)).2.2.1 (Or.inr rfl),
   (c7_sign_hemisphere 1 90 [] (by norm_num) (by norm_num)).2.2.2 (Or.inr (Or.inr rfl))⟩

/-- Exhaustive check of the population round-trip over all digit pairs
and significands with at least one digit nonzero. -/
theorem popString_roundtrip_fin :
    ∀ (a b : Fin 10) (c : Fin 16), a.val ≠ 0 ∨ b.val ≠ 0 →
      (parse_population_string (popString a.val b.val c.val)).map format_population
        = .ok (popString a.val b.val c.val) := by decide

/-- C5 counterexample: the string `"0.0e+0"` is valid under the input
grammar, parses successfully to the packed value 0, but formats back
as the literal `"0"`, so `format(parse(s)) = s` fails for it. -/
theorem c5_counterexample :
    parse_population_string "0.0e+0".toList = .ok 0 ∧
    format_population 0 = "0".toList ∧
    "0".toList ≠ "0.0e+0".toList :=
  ⟨by decide, by decide, by decide⟩

/-- C5 (amended): `format_population ∘ parse_population_string` is the
identity on every valid input string except those whose two digits are
both zero (which collapse to the literal "0"): it holds for "0"
itself, and for `"<d1>.<d2>e+<s>"` whenever d1 and d2 are digits not
both zero and s ≤ 15. -/
theorem c5_amended (d1 d2 sig : Nat) (h1 : d1 ≤ 9) (h2 : d2 ≤ 9)
    (h3 : sig ≤ 15) (h4 : ¬(d1 = 0 ∧ d2 = 0)) :
    (parse_population_string "0".toList).map format_population = .ok "0".toList ∧
    (parse_population_string (popString d1 d2 sig)).map format_population
      = .ok (popString d1 d2 sig) := by
  refine ⟨by decide, ?_⟩
  have := popString_roundtrip_fin ⟨d1, by omega⟩ ⟨d2, by omega⟩ ⟨sig, by omega⟩
    (by simp only [Fin.val]; omega)
  simpa using this

/-- C5 amended witness: the round-trip at `"1.2e+15"`. -/
theorem c5_amended_witness :
    (parse_population_string (popString 1 2 15)).map format_population
      = .ok (popString 1 2 15) :=
  (c5_amended 1 2 15 (by decide) (by decide) (by decide) (by decide)).2

/-- Evaluation of the city filter for a name-plus-country query when
the city's country index is in range: no panic, and the result is
exact name equality combined with substring containment against the
country table entry. -/
theorem cityMatches_country (db : GeoDatabase) (nm q : List Char) (c : CityEntry)
    (h : c.country_ix < db.countries.length) :
    cityMatches db nm none none (some q) c
      = .ok (decide (c.name = nm) &&
          listContains (db.countries.getD c.country_ix []) q) := by
  rw [cityMatches]
  by_cases hn : c.name = nm
  · rw [if_pos hn]
    simp only [checkTable, vecIndex_lt db.countries c.country_ix h, PanicOr.bind]
    rw [decide_eq_true hn, Bool.true_and]
    split <;> simp_all
  · simp [if_neg hn, hn]

/-- C8: `find_matching_cities` splits the query on commas, requires
the first segment to equal the city name exactly (after trimming, for
multi-segment queries) and matches the later segment by substring
containment against the combined code+name country entry: for every
store whose cities have in-range country indices and every two-segment
query, the result is exactly the indices of the cities matching that
way; and on the two-Bristol fixture store, `"Bristol, GB"` returns
exactly the city whose country entry contains `GB` while `"Bristol"`
returns both. -/
theorem c8_city_query :
    (∀ (db : GeoDatabase) (a b : List Char), ',' ∉ a → ',' ∉ b →
      (∀ c ∈ db.cities, c.country_ix < db.countries.length) →
      ∃ l, find_matching_cities db (a ++ ',' :: b) = .ok l ∧
        ∀ i, i ∈ l ↔ ∃ c, db.cities[i]? = some c ∧ c.name = trim a ∧
          listContains (db.countries.getD c.country_ix []) (trim b) = true) ∧
    find_matching_cities bristolDb "Bristol, GB".toList = .ok [0] ∧
    find_matching_cities bristolDb "Bristol".toList = .ok [0, 1] := by
  refine ⟨?_, by decide, by decide⟩
  intro db a b ha hb hr
  have hsplit := splitOn_two b a ha hb
  refine ⟨collectPure (fun _ c => decide (c.name = trim a) &&
      listContains (db.countries.getD c.country_ix []) (trim b)) 0 db.cities, ?_, ?_⟩
  · simp only [find_matching_cities, hsplit, List.length_cons, List.length_nil,
      List.getD_cons_zero, List.getD_cons_succ]
    exact collectIndices_ok _ _ db.cities 0
      (fun j x hx => cityMatches_country db (trim a) (trim b) x (hr x hx))
  · intro i
    rw [collectPure_mem]
    constructor
    · rintro ⟨j, x, hj, rfl, hp⟩
      rw [Bool.and_eq_true, decide_eq_true_eq] at hp
      exact ⟨x, by simpa using hj, hp.1, hp.2⟩
    · rintro ⟨c, hc, h1, h2⟩
      exact ⟨i, c, hc, by omega,
        by rw [Bool.and_eq_true, decide_eq_true_eq]; exact ⟨h1, h2⟩⟩

/-- C8 witness: the general two-segment characterisation instantiated
on the Bristol fixture store with the query `"Bristol, GB"`. -/
theorem c8_city_query_witness :
    ∃ l, find_matching_cities bristolDb ("Bristol".toList ++ ',' :: " GB".toList)
        = .ok l ∧
      ∀ i, i ∈ l ↔ ∃ c, bristolDb.cities[i]? = some c ∧
        c.name = trim "Bristol".toList ∧
        listContains (bristolDb.countries.getD c.country_ix [])
          (trim " GB".toList) = true :=
  c8_city_query.1 bristolDb "Bristol".toList " GB".toList (by decide) (by decide)
    (by simp [bristolDb, bristol1, bristol2])

/-- Reading a serialised empty store: header line `Geolocation1.03 0`,
a comment line with no newline and no trailing whitespace, then the
six sentinels, parses back to the store with that comment and empty
tables. -/
theorem read_from_of_parts (comment : List Char) (h1 : '\n' ∉ comment)
    (h2 : trimEnd comment = comment) :
    read_from ("Geolocation1.03 0".toList ++ '\n' ::
        (comment ++ '\n' :: (sentinelBytes 1 ++ sentinelBytes 2 ++ sentinelBytes 3
          ++ sentinelBytes 4 ++ sentinelBytes 5 ++ sentinelBytes 0)))
      = .ok ⟨comment, [], [], [], [], [], []⟩ := by
  have e1 : ∀ X : List Char,
      read_line ("Geolocation1.03 0".toList ++ '\n' :: X)
        = ("Geolocation1.03 0".toList, X) := by
    intro X
    rw [read_line_append _ _ (by decide)]
    rfl
  have e2 : ∀ X : List Char, read_line (comment ++ '\n' :: X) = (comment, X) := by
    intro X
    rw [read_line_append _ _ h1, h2]
  have e3 : parse_header "Geolocation1.03 0".toList = .ok "1.03".toList := rfl
  simp only [read_from, e1, e2, e3]
  rw [if_neg (by decide)]
  simp [readCities, readTable, read_line, splitLine, trimEnd, isRustWhitespace,
    sentinelBytes, tableSentinel]

/-- C9 counterexample: the store whose comment is a single space, with
zero cities and all tables empty, does not round-trip to an equal
store: writing it and reading the bytes back succeeds but yields the
store with the empty comment (`read_line` trimmed the space). -/
theorem c9_counterexample :
    read_from (write_to spaceCommentDb) = .ok emptyDb ∧ emptyDb ≠ spaceCommentDb := by
  constructor
  · have e1 : ∀ X : List Char,
        read_line ("Geolocation1.03 0".toList ++ '\n' :: X)
          = ("Geolocation1.03 0".toList, X) := by
      intro X
      rw [read_line_append _ _ (by decide)]
      rfl
    have e2 : ∀ X : List Char, read_line (' ' :: '\n' :: X) = ([], X) := by
      intro X
      have h : (' ' :: '\n' :: X) = [' '] ++ '\n' :: X := rfl
      rw [h, read_line_append _ _ (by decide)]
      rfl
    have e3 : parse_header "Geolocation1.03 0".toList = .ok "1.03".toList := rfl
    show read_from ("Geolocation1.03 0".toList ++ '\n' :: ' ' :: '\n' ::
        (sentinelBytes 1 ++ sentinelBytes 2 ++ sentinelBytes 3
          ++ sentinelBytes 4 ++ sentinelBytes 5 ++ sentinelBytes 0))
      = .ok emptyDb
    simp only [read_from, e1, e2, e3]
    rw [if_neg (by decide)]
    simp [readCities, readTable, read_line, splitLine, trimEnd, isRustWhitespace,
      sentinelBytes, tableSentinel, emptyDb]
  · decide

/-- C9 (amended): a store with zero cities and zero entries in every
table round-trips through `write_to` and `read_from` to an equal
store, provided its comment contains no newline and has no trailing
whitespace (`read_line` would otherwise alter it, see C10). -/
theorem c9_amended (comment : List Char) (h1 : '\n' ∉ comment)
    (h2 : trimEnd comment = comment) :
    read_from (write_to ⟨comment, [], [], [], [], [], []⟩)
      = .ok ⟨comment, [], [], [], [], [], []⟩ := by
  have hhd : ∀ X : List Char,
      "Geolocation1.03 ".toList ++ Nat.toDigits 10 0 ++ '\n' :: X
        = "Geolocation1.03 0".toList ++ '\n' :: X := fun X => rfl
  have hw : write_to ⟨comment, [], [], [], [], [], []⟩
      = "Geolocation1.03 0".toList ++ '\n' ::
          (comment ++ '\n' :: (sentinelBytes 1 ++ sentinelBytes 2 ++ sentinelBytes 3
            ++ sentinelBytes 4 ++ sentinelBytes 5 ++ sentinelBytes 0)) := by
    simp only [write_to, tableLines, List.map_nil, List.flatten_nil, List.nil_append,
      List.append_nil, List.length_nil]
    exact hhd _
  rw [hw]
  exact read_from_of_parts comment h1 h2

/-- C9 amended witness: the empty store with comment `"hello"`
round-trips unchanged. -/
theorem c9_amended_witness :
    read_from (write_to ⟨"hello".toList, [], [], [], [], [], []⟩)
      = .ok ⟨"hello".toList, [], [], [], [], [], []⟩ :=
  c9_amended "hello".toList (by decide) (by decide)
